import Mathlib

/-!
Shallow embedding of the gnapsis benchmark harness (`bench/run.py`,
`bench/judge.py`, `bench/analyze.py`) and proofs about the claims of its
specification.

Modelling conventions:
* Python strings are `String` (sequences of code points); slicing `s[:n]`
  is `takeChars s n`; `str.lower()` is `strLower` and `str.strip()` is
  `pyStrip` (ASCII models of Python's case folding and whitespace, which is
  what every task keyword, answer and regex in this code uses).
* Python floats that are only passed through or combined by exact
  field arithmetic are modelled as `Rat`.
* `json.loads` is an external library; it is modelled as an abstract
  parameter `String → Option _` returning the fields the code reads
  (with each `dict.get(key, default)` kept as an `Option` plus `getD`).
* `subprocess.run` outcomes are an input of the embedding: either a
  timeout (`subprocess.TimeoutExpired`) or a completed process with
  return code, stdout and stderr.
-/

/-- Python's `\s` character class (ASCII part), used by `re` and `str.strip`. -/
def isPySpace (c : Char) : Bool :=
  c = ' ' || c = '\t' || c = '\n' || c = '\r' || c = '\x0b' || c = '\x0c'

/-- Python `s.strip()` on a list of characters. -/
def pyStripList (l : List Char) : List Char :=
  ((l.dropWhile isPySpace).reverse.dropWhile isPySpace).reverse

/-- Python `s.strip()`. -/
def pyStrip (s : String) : String := ⟨pyStripList s.toList⟩

/-- Python slicing `s[:n]` (by code points). -/
def takeChars (s : String) (n : Nat) : String := ⟨s.toList.take n⟩

/-- Does `l` start with the pattern `p`? -/
def startsWithList : List Char → List Char → Bool
  | [], _ => true
  | _ :: _, [] => false
  | p :: ps, c :: cs => p = c && startsWithList ps cs

/-- Python substring test `needle in haystack` on character lists. -/
def containsSubList (needle : List Char) : List Char → Bool
  | [] => startsWithList needle []
  | c :: cs => startsWithList needle (c :: cs) || containsSubList needle cs

/-- Python `needle in haystack` for strings. -/
def strContains (haystack needle : String) : Bool :=
  containsSubList needle.toList haystack.toList

/-- Python `str.lower()` (ASCII model). -/
def strLower (s : String) : String := ⟨s.toList.map Char.toLower⟩

/-- `judge.py` `count_keyword_hits`: count how many expected keywords appear
in the answer text (case-insensitive substring test, hits kept in keyword
order). -/
def count_keyword_hits (text : String) (keywords : List String) : Nat × List String :=
  let textLower := strLower text
  let hits := keywords.filter fun kw => strContains textLower (strLower kw)
  (hits.length, hits)

/-- Numeric value of a run of decimal digit characters — Python `int(...)`
applied to a regex digit group. -/
def digitsVal (ds : List Char) : Nat :=
  ds.foldl (fun a c => a * 10 + (c.toNat - 48)) 0

/-- Attempt to match the regex `"score"\s*:\s*(\d+)` at the head of `l`,
returning the value of the digit group. -/
def matchScoreAt (l : List Char) : Option Nat :=
  match l with
  | '"' :: 's' :: 'c' :: 'o' :: 'r' :: 'e' :: '"' :: rest =>
    match rest.dropWhile isPySpace with
    | ':' :: rest2 =>
      let ds := (rest2.dropWhile isPySpace).takeWhile Char.isDigit
      if ds.isEmpty then none else some (digitsVal ds)
    | _ => none
  | _ => none

def searchScoreAux : List Char → Option Nat
  | [] => none
  | c :: cs =>
    match matchScoreAt (c :: cs) with
    | some n => some n
    | none => searchScoreAux cs

/-- `re.search(r'"score"\s*:\s*(\d+)', s)`: value of the digit group of the
leftmost match, if any. -/
def searchScore (s : String) : Option Nat := searchScoreAux s.toList

/-- The pattern `` ```json `` (first alternative of the fence-stripping regex). -/
def fenceJsonPat : List Char := ['`', '`', '`', 'j', 's', 'o', 'n']

/-- The pattern `` ``` ``. -/
def fencePat : List Char := ['`', '`', '`']

theorem dropWhile_length_le {α : Type} (p : α → Bool) (l : List α) :
    (l.dropWhile p).length ≤ l.length := by
  induction l with
  | nil => simp
  | cons c cs ih =>
    by_cases h : p c
    · simp only [List.dropWhile_cons, h, if_true, List.length_cons]
      omega
    · simp [List.dropWhile_cons, h]

theorem startsWithList_length_le :
    ∀ p l : List Char, startsWithList p l = true → p.length ≤ l.length := by
  intro p
  induction p with
  | nil => intro l _; exact Nat.zero_le _
  | cons x xs ih =>
    intro l h
    cases l with
    | nil => simp [startsWithList] at h
    | cons c cs =>
      simp only [startsWithList, Bool.and_eq_true] at h
      simpa using Nat.succ_le_succ (ih cs h.2)

/-- `re.sub(r"```json\s*|\s*```", "", ·)`: scan left to right; at each
position try the first alternative (` ```json ` plus trailing whitespace),
then the second (whitespace run followed by ` ``` `); on a match drop the
matched span and continue after it, else keep one character and advance. -/
def subFences : List Char → List Char
  | [] => []
  | c :: cs =>
    if startsWithList fenceJsonPat (c :: cs) then
      subFences ((cs.drop 6).dropWhile isPySpace)
    else if h : startsWithList fencePat ((c :: cs).dropWhile isPySpace) then
      subFences (((c :: cs).dropWhile isPySpace).drop 3)
    else
      c :: subFences cs
termination_by l => l.length
decreasing_by
  · have h1 := dropWhile_length_le isPySpace (cs.drop 6)
    have h2 := List.length_drop 6 cs
    simp only [List.length_cons]
    omega
  · have h1 := startsWithList_length_le fencePat ((c :: cs).dropWhile isPySpace) h
    have h2 := dropWhile_length_le isPySpace (c :: cs)
    have h3 := List.length_drop 3 ((c :: cs).dropWhile isPySpace)
    simp only [List.length_cons] at h2 ⊢
    simp only [fencePat, List.length_cons, List.length_nil] at h1
    omega
  · simp only [List.length_cons]; omega

/-- `judge.py` line 119: strip markdown code fences from the judge's result
text and `strip()` the remainder. -/
def stripFences (s : String) : String := pyStrip ⟨subFences s.toList⟩

/-- Outcome of a completed `subprocess.run` call. -/
structure ProcDone where
  returncode : Int
  stdout : String
  stderr : String

/-- Outcome of `subprocess.run` with a timeout: either
`subprocess.TimeoutExpired` or a completed process. -/
inductive ProcResult where
  | timedOut
  | done (p : ProcDone)

/-- The fields `judge.py` reads from the envelope `json.loads(proc.stdout)`:
`response.get("result", "")` and `response.get("total_cost_usd", 0)`. -/
structure Envelope where
  result : Option String
  total_cost_usd : Option Rat

/-- A `{score, reasoning}` object, the shape `judge.py` reads from the
result text (`json.loads(clean)`). -/
structure ScoreObj where
  score : Int
  reasoning : String

/-- The dict returned by `judge_answer`: the early error returns carry no
`judge_cost_usd` key (`none`), the post-envelope returns carry it. -/
structure JudgeResult where
  score : Int
  reasoning : String
  judge_cost_usd : Option Rat
deriving DecidableEq

/-- `judge.py` `judge_answer` (lines 93-133), abstracted over the two
`json.loads` calls (`loadsEnv` for the process stdout envelope, `loadsScore`
for the fence-stripped result text) and over the subprocess outcome `pr`. -/
def judge_answer (loadsEnv : String → Option Envelope)
    (loadsScore : String → Option ScoreObj) (pr : ProcResult) : JudgeResult :=
  match pr with
  | .timedOut => ⟨-1, "Judge timed out", none⟩
  | .done p =>
    if p.returncode ≠ 0 ∧ pyStrip p.stdout = "" then
      ⟨-1, "Judge error: " ++ takeChars p.stderr 200, none⟩
    else
      match loadsEnv p.stdout with
      | none => ⟨-1, "Judge JSON parse error", none⟩
      | some response =>
        let result_text := response.result.getD ("")
        let judge_cost := response.total_cost_usd.getD 0
        match loadsScore (stripFences result_text) with
        | some sd => ⟨sd.score, sd.reasoning, some judge_cost⟩
        | none =>
          match searchScore result_text with
          | some n => ⟨(n : Int), takeChars result_text 200, some judge_cost⟩
          | none => ⟨-1, "Failed to parse: " ++ takeChars result_text 200, some judge_cost⟩

/-- A task from `tasks.json`, as read by `judge.py` and `run.py`.  (Named `BenchTask` because `Task` exists in core Lean.) -/
structure BenchTask where
  id : String
  prompt : String
  rubric : String
  expected_answer_keywords : List String
  max_turns : Option Nat

/-- The fields of a persisted result record that `judge.py` `main` reads and
writes.  `Option` marks keys that may be absent from the JSON document. -/
structure JRecord where
  task_id : String
  result_text : Option String
  quality_score : Option Int
  quality_reasoning : Option String
  judge_cost_usd : Option Rat
  keyword_hits : Option Nat
  keyword_total : Option Nat
  keyword_list : Option (List String)
deriving DecidableEq

/-- `"quality_score" in data and data["quality_score"] >= 0`. -/
def hasValidScore (d : JRecord) : Bool :=
  match d.quality_score with
  | some q => 0 ≤ q
  | none => false

/-- One iteration of the loop in `judge.py` `main` (lines 158-198) for a
record `data`: returns the record written back to its file (`none` when the
iteration hits a `continue` before the write), together with the number of
external judge calls made (0 or 1).  `tasks` is the task catalog,
`judgeFn task answer` stands for the external call
`judge_answer(task, answer, model)`. -/
def judge_record (tasks : String → Option BenchTask) (force keywords_only : Bool)
    (judgeFn : BenchTask → String → JudgeResult) (data : JRecord) :
    Option JRecord × Nat :=
  match tasks data.task_id with
  | none => (none, 0)
  | some task =>
    let answer := data.result_text.getD ("")
    if answer = "" then (none, 0)
    else
      let kh := count_keyword_hits answer task.expected_answer_keywords
      let data1 := { data with
        keyword_hits := some kh.1,
        keyword_total := some task.expected_answer_keywords.length,
        keyword_list := some kh.2 }
      if keywords_only then (some data1, 0)
      else if ¬ force ∧ hasValidScore data1 then (none, 0)
      else
        let sd := judgeFn task answer
        (some { data1 with
          quality_score := some sd.score,
          quality_reasoning := some sd.reasoning,
          judge_cost_usd := some (sd.judge_cost_usd.getD 0) }, 1)

/-- Generic insertion of `x` into a list using a boolean `le`. -/
def insertBy {α : Type} (le : α → α → Bool) (x : α) : List α → List α
  | [] => [x]
  | y :: ys => if le x y then x :: y :: ys else y :: insertBy le x ys

/-- Insertion sort, the model of Python `sorted(...)`. -/
def sortBy {α : Type} (le : α → α → Bool) : List α → List α
  | [] => []
  | x :: xs => insertBy le x (sortBy le xs)

/-- Python `<` on strings: code-point lexicographic comparison. -/
def charListLt : List Char → List Char → Bool
  | [], [] => false
  | [], _ :: _ => true
  | _ :: _, [] => false
  | a :: as, b :: bs => if a = b then charListLt as bs else decide (a < b)

def strLtB (a b : String) : Bool := charListLt a.toList b.toList

/-- Python `<=` on strings. -/
def strLeB (a b : String) : Bool := strLtB a b || a == b

/-- Python `<=` on `(task_id, condition)` tuples. -/
def keyLe (x y : String × String) : Bool :=
  strLtB x.1 y.1 || (x.1 == y.1 && strLeB x.2 y.2)

/-- `statistics.mean` (exact). -/
def listMean (l : List Rat) : Rat := l.sum / l.length

/-- `statistics.median`: sort, take the middle element, or the average of
the two middle elements when the length is even. -/
def listMedian (l : List Rat) : Rat :=
  let s := sortBy (fun a b : Rat => decide (a ≤ b)) l
  let n := l.length
  if n % 2 = 1 then s.getD (n / 2) 0
  else (s.getD (n / 2 - 1) 0 + s.getD (n / 2) 0) / 2

/-- The metric list `METRICS` of `analyze.py` (keys only; display labels are
in `metricLabel`). -/
inductive MetricKey where
  | total_input_tokens
  | input_tokens
  | cache_read_input_tokens
  | cache_creation_input_tokens
  | output_tokens
  | total_cost_usd
  | num_turns
  | duration_ms
  | quality_score
  | keyword_hits
deriving DecidableEq

def METRICS : List MetricKey :=
  [.total_input_tokens, .input_tokens, .cache_read_input_tokens,
   .cache_creation_input_tokens, .output_tokens, .total_cost_usd,
   .num_turns, .duration_ms, .quality_score, .keyword_hits]

def metricLabel : MetricKey → String
  | .total_input_tokens => "Total In Tokens"
  | .input_tokens => "  Non-cached"
  | .cache_read_input_tokens => "  Cache Read"
  | .cache_creation_input_tokens => "  Cache Create"
  | .output_tokens => "Output Tokens"
  | .total_cost_usd => "Cost (USD)"
  | .num_turns => "Turns"
  | .duration_ms => "Duration (ms)"
  | .quality_score => "Quality (0-10)"
  | .keyword_hits => "Keyword Hits"

/-- The dict returned by `compute_stats`. -/
structure Stats where
  mean : Rat
  median : Rat
  stdev : Rat
  n : Nat
deriving DecidableEq

/-- `analyze.py` `compute_stats`, abstracted over `statistics.stdev`
(whose square root leaves the rationals); `stdevFn` is only invoked the way
the source invokes `statistics.stdev`. -/
def compute_stats (stdevFn : List Rat → Rat) (values : List Rat) : Stats :=
  if values.isEmpty then ⟨0, 0, 0, 0⟩
  else
    ⟨listMean values, listMedian values,
     if 1 < values.length then stdevFn values else 0,
     values.length⟩

/-- A result record as the Aggregator sees it: identity plus a partial map
from metric keys to numeric values (a JSON key that is absent or `null`
is `none`). -/
structure ARecord where
  task_id : String
  condition : String
  fields : MetricKey → Option Rat

/-- A raw result file before `load_results` processes it: its file name,
its optional `error` key, and its record content. The input list models
`sorted(RESULTS_DIR.glob("*.json"))`. -/
structure RawFile where
  name : String
  error : Option String
  task_id : String
  condition : String
  fields : MetricKey → Option Rat

/-- `analyze.py` `load_results` (lines 34-51): skip `all_results.json`,
skip error records, and overwrite `total_input_tokens` with the sum of the
three input-token components (each defaulting to 0). -/
def load_results (files : List RawFile) : List ARecord :=
  files.filterMap fun d =>
    if d.name = "all_results.json" then none
    else if d.error.isSome then none
    else some ⟨d.task_id, d.condition,
      fun k =>
        if k = MetricKey.total_input_tokens then
          some ((d.fields .input_tokens).getD 0 + (d.fields .cache_read_input_tokens).getD 0
            + (d.fields .cache_creation_input_tokens).getD 0)
        else d.fields k⟩

/-- The value sample for one metric of one group (`analyze.py` lines 82-85):
drop records where the key is absent, then, for `quality_score` only, drop
sentinel values `< 0`. -/
def metricValues (runs : List ARecord) (k : MetricKey) : List Rat :=
  let values := runs.filterMap fun r => r.fields k
  if k = MetricKey.quality_score then values.filter (fun v => decide (0 ≤ v)) else values

/-- One row of the aggregate report. -/
structure AggEntry where
  task_id : String
  condition : String
  n_runs : Nat
  stats : MetricKey → Stats
  total_tokens_mean : Rat

/-- The loop body of `aggregate` for one `(task_id, condition)` group. -/
def aggregateEntry (stdevFn : List Rat → Rat) (task_id condition : String)
    (runs : List ARecord) : AggEntry :=
  { task_id := task_id, condition := condition, n_runs := runs.length,
    stats := fun k => compute_stats stdevFn (metricValues runs k),
    total_tokens_mean :=
      let total_tokens := runs.map fun r =>
        (r.fields .input_tokens).getD 0 + (r.fields .output_tokens).getD 0
      if total_tokens.isEmpty then 0 else listMean total_tokens }

/-- `analyze.py` `aggregate` (lines 66-99): group by `(task_id, condition)`
(dict insertion order, each group in record order), then emit one entry per
group in sorted key order. -/
def aggregate (stdevFn : List Rat → Rat) (results : List ARecord) : List AggEntry :=
  let keys := (results.map fun r => (r.task_id, r.condition)).eraseDups
  (sortBy keyLe keys).map fun k =>
    aggregateEntry stdevFn k.1 k.2
      (results.filter fun r => r.task_id == k.1 && r.condition == k.2)

/-- One numeric comparison row printed by `print_comparison`: the two
condition values, their delta and the percent change. -/
structure CompRow where
  task : String
  label : String
  v1 : Rat
  v2 : Rat
  delta : Rat
  pct : Rat
deriving DecidableEq

/-- The row computation of `print_comparison` (lines 139-151):
`delta = v2 - v1` and `pct = delta / v1 * 100 if v1 != 0 else 0`. -/
def compRow (task label : String) (v1 v2 : Rat) : CompRow :=
  let delta := v2 - v1
  let pct := if v1 ≠ 0 then delta / v1 * 100 else 0
  ⟨task, label, v1, v2, delta, pct⟩

/-- One row of `print_single_condition`. -/
structure SingleRow where
  task_id : String
  num_turns_mean : Rat
  total_tokens_mean : Rat
  total_cost_usd_mean : Rat
  duration_s : Rat
  quality_score_mean : Rat
deriving DecidableEq

/-- `analyze.py` `print_single_condition` (lines 200-212), as the data of
the printed rows. -/
def print_single_condition (report : List AggEntry) : List SingleRow :=
  report.map fun r =>
    ⟨r.task_id, (r.stats .num_turns).mean, r.total_tokens_mean,
     (r.stats .total_cost_usd).mean, (r.stats .duration_ms).mean / 1000,
     (r.stats .quality_score).mean⟩

def tasksOf (report : List AggEntry) : List String :=
  sortBy strLeB ((report.map fun r => r.task_id).eraseDups)

def conditionsOf (report : List AggEntry) : List String :=
  sortBy strLeB ((report.map fun r => r.condition).eraseDups)

/-- The per-task block of `print_comparison` (lines 124-163): find the two
group entries for `task` (skip the task if either is missing), one row per
metric mean, plus the `Total Tokens` row.  (The `is None` guards of the
source are vacuous: every entry carries a number for every metric.) -/
def taskRows (report : List AggEntry) (c1 c2 task : String) : List CompRow :=
  match report.find? (fun r => r.task_id == task && r.condition == c1),
        report.find? (fun r => r.task_id == task && r.condition == c2) with
  | some r1, some r2 =>
      (METRICS.map fun k => compRow task (metricLabel k) (r1.stats k).mean (r2.stats k).mean)
        ++ [compRow task ("Total Tokens") r1.total_tokens_mean r2.total_tokens_mean]
  | _, _ => []

/-- The `AVERAGES ACROSS ALL TASKS` block of `print_comparison`
(lines 170-194): per metric, the mean of the per-group means of each
condition (skipped when either side has no groups). -/
def avgRows (report : List AggEntry) (c1 c2 : String) : List CompRow :=
  METRICS.filterMap fun k =>
    let vals1 := (report.filter fun r => r.condition == c1).map fun r => (r.stats k).mean
    let vals2 := (report.filter fun r => r.condition == c2).map fun r => (r.stats k).mean
    if vals1.isEmpty || vals2.isEmpty then none
    else some (compRow ("AVERAGE") (metricLabel k) (listMean vals1) (listMean vals2))

/-- What `print_comparison` renders: either the single-condition fallback or
the two-condition comparison table. -/
inductive CompOutput where
  | single (rows : List SingleRow)
  | compare (c1 c2 : String) (rows : List CompRow)
deriving DecidableEq

/-- `analyze.py` `print_comparison` (lines 102-197), as the data of the
rendered report: with fewer than two distinct conditions fall back to the
single-condition listing; otherwise compare the first two conditions in
sorted order. -/
def print_comparison (report : List AggEntry) : CompOutput :=
  let conditions := conditionsOf report
  if conditions.length < 2 then .single (print_single_condition report)
  else
    let c1 := conditions.getD 0 ("")
    let c2 := conditions.getD 1 ("")
    .compare c1 c2
      (((tasksOf report).flatMap fun task => taskRows report c1 c2 task)
        ++ avgRows report c1 c2)

/-- The fields `run.py` reads from the envelope `json.loads(proc.stdout)`
(the `usage` sub-object is flattened into its four read keys). -/
structure RunEnvelope where
  num_turns : Option Int
  duration_ms : Option Int
  duration_api_ms : Option Int
  total_cost_usd : Option Rat
  input_tokens : Option Int
  output_tokens : Option Int
  cache_read_input_tokens : Option Int
  cache_creation_input_tokens : Option Int
  is_error : Option Bool
  session_id : Option String
  result : Option String

/-- An error dict returned by `run_task` (`task_id`, `condition`, `run_id`,
`error`). -/
structure ErrRecord where
  task_id : String
  condition : String
  run_id : Nat
  error : String
deriving DecidableEq

/-- The success dict returned by `run_task`. Every usage/cost/timing field
is a plain number (defaulted, never absent).  `wall_time_s` carries the
measured elapsed time, an input of the embedding (the source additionally
rounds it to two decimals, a float operation not modelled here). -/
structure OkRecord where
  task_id : String
  condition : String
  run_id : Nat
  model : String
  num_turns : Int
  duration_ms : Int
  duration_api_ms : Int
  total_cost_usd : Rat
  input_tokens : Int
  output_tokens : Int
  cache_read_input_tokens : Int
  cache_creation_input_tokens : Int
  is_error : Bool
  session_id : String
  result_text : String
  wall_time_s : Rat
deriving DecidableEq

/-- A dict returned by `run_task`: either a record with an `"error"` key or
a full success record. -/
inductive RunRecord where
  | err (e : ErrRecord)
  | ok (r : OkRecord)
deriving DecidableEq

/-- `run.py` `run_task` (lines 44-138), abstracted over the envelope
`json.loads` and over the subprocess outcome `pr` and elapsed wall time.
Returns `none` exactly on `--dry-run` (the source prints the command and
returns `None` before invoking the agent); `run_task_result` is the body
after the dry-run early return. -/
def run_task_result (loadsEnv : String → Option RunEnvelope) (task : BenchTask)
    (condition : String) (run_id : Nat) (model : String)
    (pr : ProcResult) (elapsed : Rat) : RunRecord :=
  match pr with
    | .timedOut => .err ⟨task.id, condition, run_id, "timeout"⟩
    | .done p =>
      if p.returncode ≠ 0 ∧ pyStrip p.stdout = "" then
        .err ⟨task.id, condition, run_id, takeChars p.stderr 500⟩
      else
        match loadsEnv p.stdout with
        | none => .err ⟨task.id, condition, run_id,
            "JSON parse error: " ++ takeChars p.stdout 200⟩
        | some response =>
          .ok ⟨task.id, condition, run_id, model,
            response.num_turns.getD 0,
            response.duration_ms.getD 0,
            response.duration_api_ms.getD 0,
            response.total_cost_usd.getD 0,
            response.input_tokens.getD 0,
            response.output_tokens.getD 0,
            response.cache_read_input_tokens.getD 0,
            response.cache_creation_input_tokens.getD 0,
            response.is_error.getD false,
            response.session_id.getD (""),
            response.result.getD (""),
            elapsed⟩

def run_task (loadsEnv : String → Option RunEnvelope) (task : BenchTask)
    (condition : String) (run_id : Nat) (model : String)
    (pr : ProcResult) (elapsed : Rat) (dry_run : Bool) : Option RunRecord :=
  if dry_run then none
  else some (run_task_result loadsEnv task condition run_id model pr elapsed)

/-- Decimal representation of a natural number — Python `str(run_id)`. -/
def natRepr (n : Nat) : String :=
  if n = 0 then "0" else ⟨((Nat.digits 10 n).map Nat.digitChar).reverse⟩

/-- `run.py` `save_result` (line 144): the storage key (file name) of a
cell's record. -/
def save_key (task_id condition : String) (run_id : Nat) : String :=
  task_id ++ "_" ++ condition ++ "_run" ++ natRepr run_id ++ ".json"

/-- `run.py` `run_benchmark` (lines 151-205): drive the repetition × task ×
condition matrix (repetition outermost), run each cell, and after each cell
append its record to the in-memory list and write it to its storage key.
The result is the ordered write trace (key, record) — one write per cell,
performed before the next cell starts — together with the in-memory
`all_results` list (which the source additionally dumps to
`all_results.json` at batch end when non-empty).  `procOf` and `elapsedOf`
supply each cell's subprocess outcome and wall time. -/
def run_benchmark (loadsEnv : String → Option RunEnvelope)
    (procOf : Nat → BenchTask → String → ProcResult)
    (elapsedOf : Nat → BenchTask → String → Rat)
    (tasks : List BenchTask) (num_runs : Nat) (conditions : List String)
    (model : String) (dry_run : Bool) :
    List (String × RunRecord) × List RunRecord :=
  (List.range' 1 num_runs).foldl
    (fun acc run_id =>
      tasks.foldl
        (fun acc task =>
          conditions.foldl
            (fun acc condition =>
              match run_task loadsEnv task condition run_id model
                  (procOf run_id task condition) (elapsedOf run_id task condition)
                  dry_run with
              | some r => (acc.1 ++ [(save_key task.id condition run_id, r)], acc.2 ++ [r])
              | none => acc)
            acc)
        acc)
    ([], [])

/-! ## Claims -/

/-- C4: for every answer text and keyword list, keyword coverage is the
case-insensitive substring containment test of each keyword against the
answer text, returning the hit count and the matched keywords in their
original task order (a sublist of the keyword list); in particular for
keywords `["Queue", "Retry"]` and answer `"uses a retry strategy with a
QUEUE"` the hits are 2 and the hit list is `["Queue", "Retry"]`. -/
theorem count_keyword_hits_spec (text : String) (keywords : List String) :
    count_keyword_hits text keywords =
      ((keywords.filter fun kw => strContains (strLower text) (strLower kw)).length,
       keywords.filter fun kw => strContains (strLower text) (strLower kw)) ∧
    (count_keyword_hits text keywords).2.Sublist keywords ∧
    count_keyword_hits ("uses a retry strategy with a QUEUE") [("Queue" : String), "Retry"] =
      (2, ["Queue", "Retry"]) := by
  refine ⟨rfl, ?_, by decide⟩
  simpa [count_keyword_hits] using
    List.filter_sublist (l := keywords) (p := fun kw => strContains (strLower text) (strLower kw))

/-- C9 counterexample: the keyword list containing the empty keyword, on
empty answer text, yields one hit (Python `"" in ""` is `True`), not the
empty hit count the claim states for every keyword list. -/
theorem count_keyword_hits_empty_keyword_cex :
    count_keyword_hits ("") [("" : String)] = (1, [""]) := by decide

/-- C9 (amended): the keyword-coverage computation is total, and for every
keyword list whose keywords are all non-empty, the empty answer text yields
zero hits and an empty hit list. -/
theorem count_keyword_hits_empty_text (keywords : List String)
    (h : ∀ kw ∈ keywords, kw ≠ "") :
    count_keyword_hits ("") keywords = (0, []) := by
  have hfilter : (keywords.filter fun kw => strContains (strLower ("")) (strLower kw)) = [] := by
    rw [List.filter_eq_nil_iff]
    intro kw hkw
    have hne := h kw hkw
    cases kw with
    | mk l =>
      cases l with
      | nil => simp at hne
      | cons c cs => simp [strContains, strLower, containsSubList, startsWithList]
  simp [count_keyword_hits, hfilter]

theorem count_keyword_hits_empty_text_witness :
    count_keyword_hits ("") [("Queue" : String), "Retry"] = (0, []) :=
  count_keyword_hits_empty_text ["Queue", "Retry"] (by decide)

/-- C7: every record loaded by the Aggregator satisfies
`total_input_tokens = input_tokens + cache_read_input_tokens +
cache_creation_input_tokens` exactly, recomputed at load time from the
three component fields (whatever `total_input_tokens` value the raw file
carried). -/
theorem load_results_total_input_tokens (files : List RawFile) (r : ARecord)
    (hr : r ∈ load_results files) :
    r.fields MetricKey.total_input_tokens =
      some ((r.fields MetricKey.input_tokens).getD 0
        + (r.fields MetricKey.cache_read_input_tokens).getD 0
        + (r.fields MetricKey.cache_creation_input_tokens).getD 0) := by
  simp only [load_results, List.mem_filterMap] at hr
  obtain ⟨d, _, hd⟩ := hr
  by_cases h1 : d.name = "all_results.json"
  · simp [h1] at hd
  by_cases h2 : d.error.isSome
  · simp [h1, h2] at hd
  simp only [h1, h2, if_false, Bool.false_eq_true, Option.some.injEq] at hd
  subst hd
  simp

/-- A raw file whose stored `total_input_tokens` (999) disagrees with its
components (5 + 7 + 0). -/
def wRawFile : RawFile :=
  ⟨"a.json", none, "t", "c",
   fun k =>
     if k = MetricKey.input_tokens then some 5
     else if k = MetricKey.cache_read_input_tokens then some 7
     else if k = MetricKey.total_input_tokens then some 999
     else none⟩

/-- The record `load_results` produces from `wRawFile`. -/
def wARecord : ARecord :=
  ⟨"t", "c",
   fun k =>
     if k = MetricKey.total_input_tokens then
       some ((wRawFile.fields MetricKey.input_tokens).getD 0
         + (wRawFile.fields MetricKey.cache_read_input_tokens).getD 0
         + (wRawFile.fields MetricKey.cache_creation_input_tokens).getD 0)
     else wRawFile.fields k⟩

theorem load_results_total_input_tokens_witness :
    wARecord.fields MetricKey.total_input_tokens =
      some ((wARecord.fields MetricKey.input_tokens).getD 0
        + (wARecord.fields MetricKey.cache_read_input_tokens).getD 0
        + (wARecord.fields MetricKey.cache_creation_input_tokens).getD 0) :=
  load_results_total_input_tokens [wRawFile] wARecord
    (by
      have h : load_results [wRawFile] = [wARecord] := rfl
      rw [h]
      exact List.mem_singleton_self wARecord)

/-- An aggregator record carrying only a quality score. -/
def qRec (x : Rat) : ARecord :=
  ⟨"T", "c", fun k => if k = MetricKey.quality_score then some x else none⟩

/-- C2: in every aggregate group the quality-score statistics are computed
over only the samples with value ≥ 0 (sentinels < 0 filtered before
`compute_stats`); concretely, a group with scores `[8, -1, 9]` aggregates
with mean 8.5 over n = 2. -/
theorem aggregate_quality_filters_sentinels (stdevFn : List Rat → Rat)
    (task_id condition : String) (runs : List ARecord) :
    (aggregateEntry stdevFn task_id condition runs).stats MetricKey.quality_score =
      compute_stats stdevFn
        ((runs.filterMap fun r => r.fields MetricKey.quality_score).filter
          fun v => decide (0 ≤ v)) ∧
    ((aggregateEntry stdevFn ("T") ("c") [qRec 8, qRec (-1), qRec 9]).stats
        MetricKey.quality_score).mean = 17/2 ∧
    ((aggregateEntry stdevFn ("T") ("c") [qRec 8, qRec (-1), qRec 9]).stats
        MetricKey.quality_score).n = 2 := by
  refine ⟨rfl, ?_, ?_⟩
  · show (compute_stats stdevFn (metricValues [qRec 8, qRec (-1), qRec 9]
      MetricKey.quality_score)).mean = 17/2
    have hv : metricValues [qRec 8, qRec (-1), qRec 9] MetricKey.quality_score = [8, 9] := by
      simp [metricValues, qRec]
    rw [hv]
    simp [compute_stats, listMean, listMedian, sortBy, insertBy]
    norm_num
  · show (compute_stats stdevFn (metricValues [qRec 8, qRec (-1), qRec 9]
      MetricKey.quality_score)).n = 2
    have hv : metricValues [qRec 8, qRec (-1), qRec 9] MetricKey.quality_score = [8, 9] := by
      simp [metricValues, qRec]
    rw [hv]
    simp [compute_stats]

/-- C1: judge score extraction is a layered fallback pipeline, each stage
attempted only when the prior yielded nothing: (1) envelope parse of the
raw stdout giving result text and cost; (2) fence-strip then parse as a
score object; (3) regex search for a score key, integer value with the
first 200 characters of the raw text as reasoning; (4) sentinel -1 with a
diagnostic string on timeout, on non-zero exit with empty output, and on
every parse failure. -/
theorem judge_answer_pipeline (loadsEnv : String → Option Envelope)
    (loadsScore : String → Option ScoreObj) :
    (judge_answer loadsEnv loadsScore .timedOut = ⟨-1, "Judge timed out", none⟩) ∧
    (∀ p : ProcDone, p.returncode ≠ 0 → pyStrip p.stdout = "" →
      judge_answer loadsEnv loadsScore (.done p) =
        ⟨-1, "Judge error: " ++ takeChars p.stderr 200, none⟩) ∧
    (∀ p : ProcDone, ¬(p.returncode ≠ 0 ∧ pyStrip p.stdout = "") →
      loadsEnv p.stdout = none →
      judge_answer loadsEnv loadsScore (.done p) =
        ⟨-1, "Judge JSON parse error", none⟩) ∧
    (∀ (p : ProcDone) (env : Envelope) (sd : ScoreObj),
      ¬(p.returncode ≠ 0 ∧ pyStrip p.stdout = "") →
      loadsEnv p.stdout = some env →
      loadsScore (stripFences (env.result.getD (""))) = some sd →
      judge_answer loadsEnv loadsScore (.done p) =
        ⟨sd.score, sd.reasoning, some (env.total_cost_usd.getD 0)⟩) ∧
    (∀ (p : ProcDone) (env : Envelope) (n : Nat),
      ¬(p.returncode ≠ 0 ∧ pyStrip p.stdout = "") →
      loadsEnv p.stdout = some env →
      loadsScore (stripFences (env.result.getD (""))) = none →
      searchScore (env.result.getD ("")) = some n →
      judge_answer loadsEnv loadsScore (.done p) =
        ⟨(n : Int), takeChars (env.result.getD ("")) 200,
         some (env.total_cost_usd.getD 0)⟩) ∧
    (∀ (p : ProcDone) (env : Envelope),
      ¬(p.returncode ≠ 0 ∧ pyStrip p.stdout = "") →
      loadsEnv p.stdout = some env →
      loadsScore (stripFences (env.result.getD (""))) = none →
      searchScore (env.result.getD ("")) = none →
      judge_answer loadsEnv loadsScore (.done p) =
        ⟨-1, "Failed to parse: " ++ takeChars (env.result.getD ("")) 200,
         some (env.total_cost_usd.getD 0)⟩) := by
  refine ⟨rfl, ?_, ?_, ?_, ?_, ?_⟩
  · intro p h1 h2
    simp only [judge_answer]
    rw [if_pos ⟨h1, h2⟩]
  · intro p hcond henv
    simp only [judge_answer]
    rw [if_neg hcond, henv]
  · intro p env sd hcond henv hsd
    simp only [judge_answer]
    rw [if_neg hcond, henv]
    simp only [hsd]
  · intro p env n hcond henv hsd hre
    simp only [judge_answer]
    rw [if_neg hcond, henv]
    simp only [hsd, hre]
  · intro p env hcond henv hsd hre
    simp only [judge_answer]
    rw [if_neg hcond, henv]
    simp only [hsd, hre]

theorem judge_answer_pipeline_witness :
    judge_answer (fun _ => some ⟨some ("no numeric verdict in this text"), some (1/100)⟩)
        (fun _ => none) (.done ⟨0, "OUT", ""⟩) =
      ⟨-1, "Failed to parse: "
        ++ takeChars ((Envelope.mk (some ("no numeric verdict in this text"))
            (some (1/100))).result.getD ("")) 200,
       some ((Envelope.mk (some ("no numeric verdict in this text"))
            (some (1/100))).total_cost_usd.getD 0)⟩ :=
  (judge_answer_pipeline (fun _ => some ⟨some ("no numeric verdict in this text"), some (1/100)⟩)
    (fun _ => none)).2.2.2.2.2 ⟨0, "OUT", ""⟩
    ⟨some ("no numeric verdict in this text"), some (1/100)⟩
    (by simp) rfl rfl (by decide)

/-- C10 (implicit): when the grader's result text is not valid JSON even
after fence stripping but contains a score key with a fractional value
(here `"score": 7.5`), the regex fallback matches the leading digits and
records the integer part 7 as the score — truncation, not the sentinel. -/
theorem judge_answer_fractional_score (loadsEnv : String → Option Envelope)
    (loadsScore : String → Option ScoreObj) (p : ProcDone) (env : Envelope)
    (hrc : p.returncode = 0)
    (henv : loadsEnv p.stdout = some env)
    (hrt : env.result = some ("I would assign \"score\": 7.5 for this answer"))
    (hfail : loadsScore (stripFences ("I would assign \"score\": 7.5 for this answer")) = none) :
    judge_answer loadsEnv loadsScore (.done p) =
      ⟨7, ("I would assign \"score\": 7.5 for this answer"),
       some (env.total_cost_usd.getD 0)⟩ := by
  simp only [judge_answer]
  rw [if_neg (by simp [hrc])]
  simp only [henv, hrt, Option.getD_some, hfail]
  have hsearch : searchScore ("I would assign \"score\": 7.5 for this answer") = some 7 := by
    decide
  rw [hsearch]
  have htake : takeChars ("I would assign \"score\": 7.5 for this answer") 200 =
      ("I would assign \"score\": 7.5 for this answer") := by decide
  rw [htake]
  rfl

theorem judge_answer_fractional_score_witness :
    judge_answer (fun _ => some ⟨some ("I would assign \"score\": 7.5 for this answer"), none⟩)
        (fun _ => none) (.done ⟨0, "", ""⟩) =
      ⟨7, ("I would assign \"score\": 7.5 for this answer"),
       some ((Envelope.mk (some ("I would assign \"score\": 7.5 for this answer"))
          none).total_cost_usd.getD 0)⟩ :=
  judge_answer_fractional_score
    (fun _ => some ⟨some ("I would assign \"score\": 7.5 for this answer"), none⟩)
    (fun _ => none) ⟨0, "", ""⟩
    ⟨some ("I would assign \"score\": 7.5 for this answer"), none⟩
    rfl rfl rfl rfl

/-- C5: without `force`, a record already holding a valid score (≥ 0) causes
zero external judge calls and no write-back (the stored record is left
unchanged); with `force`, provided the record's task exists and its answer
text is non-empty (the selection checks that precede the skip logic), the
judge is called exactly once and the written record's quality score is the
freshly judged score — overwriting whatever score (including the sentinel
-1) was stored before. -/
theorem judge_skip_and_force (tasks : String → Option BenchTask)
    (judgeFn : BenchTask → String → JudgeResult) (data : JRecord) :
    (hasValidScore data = true →
      judge_record tasks false false judgeFn data = (none, 0)) ∧
    (∀ task : BenchTask, tasks data.task_id = some task →
      data.result_text.getD ("") ≠ "" →
      (judge_record tasks true false judgeFn data).2 = 1 ∧
      ∃ d', (judge_record tasks true false judgeFn data).1 = some d' ∧
        d'.quality_score = some (judgeFn task (data.result_text.getD (""))).score) := by
  constructor
  · intro hvalid
    simp only [judge_record]
    cases htask : tasks data.task_id with
    | none => rfl
    | some task =>
      by_cases hans : data.result_text.getD ("") = ""
      · simp [hans]
      · simp [hasValidScore] at hvalid ⊢
        simp [hans, hasValidScore, hvalid]
  · intro task htask hans
    simp only [judge_record, htask]
    simp [hans]

def wTask : BenchTask := ⟨"T1", "prompt", "rubric", ["Queue", "Retry"], none⟩

def wTasks : String → Option BenchTask := fun s => if s = "T1" then some wTask else none

def wJudgeFn : BenchTask → String → JudgeResult := fun _ _ => ⟨9, "good", some (1/100)⟩

/-- A record already holding a valid score 7. -/
def wDataScored : JRecord := ⟨"T1", some ("an answer"), some 7, none, none, none, none, none⟩

/-- A record holding the sentinel score -1. -/
def wDataSentinel : JRecord := ⟨"T1", some ("an answer"), some (-1), none, none, none, none, none⟩

theorem judge_skip_and_force_witness :
    judge_record wTasks false false wJudgeFn wDataScored = (none, 0) ∧
    ((judge_record wTasks true false wJudgeFn wDataSentinel).2 = 1 ∧
      ∃ d', (judge_record wTasks true false wJudgeFn wDataSentinel).1 = some d' ∧
        d'.quality_score = some (wJudgeFn wTask (wDataSentinel.result_text.getD (""))).score) :=
  ⟨(judge_skip_and_force wTasks wJudgeFn wDataScored).1 (by decide),
   (judge_skip_and_force wTasks wJudgeFn wDataSentinel).2 wTask rfl (by decide)⟩

/-- C3: a cell execution is a total function of the subprocess outcome
(never an exception to the batch caller): a timeout yields the timeout
failure record; non-zero exit with empty output yields a process-error
record carrying the truncated (500-char) stderr; non-zero exit with
non-empty output is still parsed; an unparsable envelope yields a
parse-error record; and a parsed envelope yields a success record whose
usage/cost/timing fields are all plain values defaulted to zero (or
false/empty), never absent. -/
theorem run_task_outcomes (loadsEnv : String → Option RunEnvelope)
    (task : BenchTask) (condition : String) (run_id : Nat) (model : String)
    (elapsed : Rat) :
    (run_task loadsEnv task condition run_id model .timedOut elapsed false =
      some (.err ⟨task.id, condition, run_id, "timeout"⟩)) ∧
    (∀ p : ProcDone, p.returncode ≠ 0 → pyStrip p.stdout = "" →
      run_task loadsEnv task condition run_id model (.done p) elapsed false =
        some (.err ⟨task.id, condition, run_id, takeChars p.stderr 500⟩)) ∧
    (∀ p : ProcDone, ¬(p.returncode ≠ 0 ∧ pyStrip p.stdout = "") →
      loadsEnv p.stdout = none →
      run_task loadsEnv task condition run_id model (.done p) elapsed false =
        some (.err ⟨task.id, condition, run_id,
          "JSON parse error: " ++ takeChars p.stdout 200⟩)) ∧
    (∀ (p : ProcDone) (response : RunEnvelope),
      ¬(p.returncode ≠ 0 ∧ pyStrip p.stdout = "") →
      loadsEnv p.stdout = some response →
      run_task loadsEnv task condition run_id model (.done p) elapsed false =
        some (.ok ⟨task.id, condition, run_id, model,
          response.num_turns.getD 0,
          response.duration_ms.getD 0,
          response.duration_api_ms.getD 0,
          response.total_cost_usd.getD 0,
          response.input_tokens.getD 0,
          response.output_tokens.getD 0,
          response.cache_read_input_tokens.getD 0,
          response.cache_creation_input_tokens.getD 0,
          response.is_error.getD false,
          response.session_id.getD (""),
          response.result.getD (""),
          elapsed⟩)) := by
  refine ⟨rfl, ?_, ?_, ?_⟩
  · intro p h1 h2
    show some (run_task_result loadsEnv task condition run_id model (.done p) elapsed) = _
    simp only [run_task_result]
    rw [if_pos ⟨h1, h2⟩]
  · intro p hcond henv
    show some (run_task_result loadsEnv task condition run_id model (.done p) elapsed) = _
    simp only [run_task_result]
    rw [if_neg hcond, henv]
  · intro p response hcond henv
    show some (run_task_result loadsEnv task condition run_id model (.done p) elapsed) = _
    simp only [run_task_result]
    rw [if_neg hcond, henv]

theorem run_task_outcomes_witness :
    run_task (fun _ => none) ⟨"T1", "p", "r", [], none⟩ ("baseline") 1 ("sonnet")
        (.done ⟨2, "", "disk full: a very long diagnostic"⟩) 0 false =
      some (.err ⟨"T1", "baseline", 1,
        takeChars ("disk full: a very long diagnostic") 500⟩) :=
  (run_task_outcomes (fun _ => none) ⟨"T1", "p", "r", [], none⟩ ("baseline") 1 ("sonnet")
      0).2.1 ⟨2, "", "disk full: a very long diagnostic"⟩ (by decide) (by decide)

theorem compRow_delta_pct (t l : String) (v1 v2 : Rat) :
    (compRow t l v1 v2).delta = (compRow t l v1 v2).v2 - (compRow t l v1 v2).v1 ∧
    (compRow t l v1 v2).pct =
      if (compRow t l v1 v2).v1 = 0 then 0
      else (compRow t l v1 v2).delta / (compRow t l v1 v2).v1 * 100 := by
  refine ⟨rfl, ?_⟩
  by_cases hv : v1 = 0 <;> simp [compRow, hv]

theorem mem_taskRows_compRow (report : List AggEntry) (c1 c2 task : String)
    (row : CompRow) (h : row ∈ taskRows report c1 c2 task) :
    ∃ t l v1 v2, row = compRow t l v1 v2 := by
  unfold taskRows at h
  split at h
  · simp only [List.mem_append, List.mem_map, List.mem_singleton] at h
    rcases h with ⟨k, _, hk⟩ | hk
    · exact ⟨_, _, _, _, hk.symm⟩
    · exact ⟨_, _, _, _, hk⟩
  · simp at h

theorem mem_avgRows_compRow (report : List AggEntry) (c1 c2 : String)
    (row : CompRow) (h : row ∈ avgRows report c1 c2) :
    ∃ t l v1 v2, row = compRow t l v1 v2 := by
  unfold avgRows at h
  simp only [List.mem_filterMap] at h
  obtain ⟨k, _, hk⟩ := h
  split at hk
  · exact absurd hk (by simp)
  · injection hk with hk
    exact ⟨_, _, _, _, hk.symm⟩

/-- C8: with fewer than two distinct conditions, `print_comparison` falls
back to the single-condition listing (no deltas); in the comparison branch,
every rendered row (per-task metric rows, total-token rows, and cross-task
average rows) satisfies `delta = v2 - v1` and `pct = delta / v1 * 100`,
except that `pct = 0` whenever the baseline value `v1` is 0 — a defined
policy, for any delta. -/
theorem print_comparison_spec (report : List AggEntry) :
    ((conditionsOf report).length < 2 →
      print_comparison report = .single (print_single_condition report)) ∧
    (∀ c1 c2 rows, print_comparison report = .compare c1 c2 rows →
      (rows = ((tasksOf report).flatMap fun task => taskRows report c1 c2 task)
          ++ avgRows report c1 c2) ∧
      ∀ row ∈ rows, row.delta = row.v2 - row.v1 ∧
        row.pct = if row.v1 = 0 then 0 else row.delta / row.v1 * 100) := by
  constructor
  · intro hlt
    unfold print_comparison
    rw [if_pos hlt]
  · intro c1 c2 rows heq
    unfold print_comparison at heq
    by_cases hlt : (conditionsOf report).length < 2
    · rw [if_pos hlt] at heq
      exact absurd heq (by simp)
    · rw [if_neg hlt] at heq
      simp only [CompOutput.compare.injEq] at heq
      obtain ⟨hc1, hc2, hrows⟩ := heq
      subst hc1
      subst hc2
      refine ⟨hrows.symm, ?_⟩
      intro row hrow
      rw [← hrows] at hrow
      rcases List.mem_append.mp hrow with hmem | hmem
      · obtain ⟨task, _, hmem'⟩ := List.mem_flatMap.mp hmem
        obtain ⟨t, l, v1, v2, hr⟩ := mem_taskRows_compRow report _ _ task row hmem'
        subst hr
        exact compRow_delta_pct t l v1 v2
      · obtain ⟨t, l, v1, v2, hr⟩ := mem_avgRows_compRow report _ _ row hmem
        subst hr
        exact compRow_delta_pct t l v1 v2

def wEntryA : AggEntry := ⟨"T", "a", 1, fun _ => ⟨3, 3, 0, 1⟩, 10⟩

def wEntryB : AggEntry := ⟨"T", "b", 1, fun _ => ⟨6, 6, 0, 1⟩, 20⟩

def wReport : List AggEntry := [wEntryA, wEntryB]

def wRow : CompRow := compRow ("T") ("Total In Tokens") 3 6

theorem print_comparison_spec_witness :
    wRow.delta = wRow.v2 - wRow.v1 ∧
    wRow.pct = if wRow.v1 = 0 then 0 else wRow.delta / wRow.v1 * 100 :=
  ((print_comparison_spec wReport).2 ("a") ("b")
    (((tasksOf wReport).flatMap fun task => taskRows wReport ("a") ("b") task)
      ++ avgRows wReport ("a") ("b"))
    (by rfl)).2 wRow
    (List.mem_append_left _
      (List.mem_flatMap.mpr
        ⟨"T",
         by
           rw [show tasksOf wReport = [("T" : String)] from rfl]
           exact List.mem_singleton_self _,
         by
           rw [show taskRows wReport ("a") ("b") ("T") =
               (METRICS.map fun k =>
                 compRow ("T") (metricLabel k) ((wEntryA.stats k).mean)
                   ((wEntryB.stats k).mean))
               ++ [compRow ("T") ("Total Tokens") wEntryA.total_tokens_mean
                   wEntryB.total_tokens_mean] from rfl]
           exact List.mem_append_left _
             (List.mem_map.mpr ⟨MetricKey.total_input_tokens, by decide, rfl⟩)⟩))

theorem run_benchmark_cond_foldl (loadsEnv : String → Option RunEnvelope)
    (procOf : Nat → BenchTask → String → ProcResult)
    (elapsedOf : Nat → BenchTask → String → Rat) (model : String)
    (run_id : Nat) (task : BenchTask) (conds : List String)
    (acc : List (String × RunRecord) × List RunRecord) :
    conds.foldl
      (fun acc condition =>
        match run_task loadsEnv task condition run_id model
            (procOf run_id task condition) (elapsedOf run_id task condition) false with
        | some r => (acc.1 ++ [(save_key task.id condition run_id, r)], acc.2 ++ [r])
        | none => acc)
      acc
    = (acc.1 ++ conds.map fun c =>
         (save_key task.id c run_id,
          run_task_result loadsEnv task c run_id model (procOf run_id task c)
            (elapsedOf run_id task c)),
       acc.2 ++ conds.map fun c =>
         run_task_result loadsEnv task c run_id model (procOf run_id task c)
           (elapsedOf run_id task c)) := by
  induction conds generalizing acc with
  | nil => simp
  | cons c cs ih =>
    rw [List.foldl_cons, ih]
    simp [run_task]

theorem run_benchmark_task_foldl (loadsEnv : String → Option RunEnvelope)
    (procOf : Nat → BenchTask → String → ProcResult)
    (elapsedOf : Nat → BenchTask → String → Rat) (model : String)
    (run_id : Nat) (tasks : List BenchTask) (conds : List String)
    (acc : List (String × RunRecord) × List RunRecord) :
    tasks.foldl
      (fun acc task =>
        conds.foldl
          (fun acc condition =>
            match run_task loadsEnv task condition run_id model
                (procOf run_id task condition) (elapsedOf run_id task condition) false with
            | some r => (acc.1 ++ [(save_key task.id condition run_id, r)], acc.2 ++ [r])
            | none => acc)
          acc)
      acc
    = (acc.1 ++ tasks.flatMap fun t => conds.map fun c =>
         (save_key t.id c run_id,
          run_task_result loadsEnv t c run_id model (procOf run_id t c)
            (elapsedOf run_id t c)),
       acc.2 ++ tasks.flatMap fun t => conds.map fun c =>
         run_task_result loadsEnv t c run_id model (procOf run_id t c)
           (elapsedOf run_id t c)) := by
  induction tasks generalizing acc with
  | nil => simp
  | cons t ts ih =>
    rw [List.foldl_cons, run_benchmark_cond_foldl, ih]
    simp

/-- C6 canonical form of the write trace: each repetition contributes the
task×condition block, in order. -/
theorem run_benchmark_trace (loadsEnv : String → Option RunEnvelope)
    (procOf : Nat → BenchTask → String → ProcResult)
    (elapsedOf : Nat → BenchTask → String → Rat)
    (tasks : List BenchTask) (num_runs : Nat) (conditions : List String)
    (model : String) :
    run_benchmark loadsEnv procOf elapsedOf tasks num_runs conditions model false
    = ((List.range' 1 num_runs).flatMap fun run_id =>
         tasks.flatMap fun t => conditions.map fun c =>
           (save_key t.id c run_id,
            run_task_result loadsEnv t c run_id model (procOf run_id t c)
              (elapsedOf run_id t c)),
       (List.range' 1 num_runs).flatMap fun run_id =>
         tasks.flatMap fun t => conditions.map fun c =>
           run_task_result loadsEnv t c run_id model (procOf run_id t c)
             (elapsedOf run_id t c)) := by
  unfold run_benchmark
  generalize List.range' 1 num_runs = rids
  induction rids using List.reverseRecOn with
  | nil => simp
  | append_singleton rs r ih =>
    rw [List.foldl_append, List.foldl_cons, List.foldl_nil, ih, run_benchmark_task_foldl]
    simp

theorem append_sep_cancel (sep : Char) :
    ∀ (a b u v : List Char), sep ∉ a → sep ∉ b →
      a ++ sep :: u = b ++ sep :: v → a = b ∧ u = v := by
  intro a
  induction a with
  | nil =>
    intro b u v _ hb h
    cases b with
    | nil =>
      simp only [List.nil_append, List.cons.injEq] at h
      exact ⟨rfl, h.2⟩
    | cons y ys =>
      simp only [List.nil_append, List.cons_append, List.cons.injEq] at h
      exact absurd (h.1 ▸ List.mem_cons_self y ys) (by simpa [← h.1] using hb)
  | cons x xs ih =>
    intro b u v ha hb h
    cases b with
    | nil =>
      simp only [List.cons_append, List.nil_append, List.cons.injEq] at h
      exact absurd (List.mem_cons_self x xs) (by simpa [h.1] using ha)
    | cons y ys =>
      simp only [List.cons_append, List.cons.injEq] at h
      have hxs : sep ∉ xs := fun hm => ha (List.mem_cons_of_mem x hm)
      have hys : sep ∉ ys := fun hm => hb (List.mem_cons_of_mem y hm)
      obtain ⟨h1, h2⟩ := ih ys u v hxs hys h.2
      exact ⟨by rw [h.1, h1], h2⟩

theorem digitChar_inj_lt :
    ∀ a : Nat, a < 10 → ∀ b : Nat, b < 10 → Nat.digitChar a = Nat.digitChar b → a = b := by
  decide

theorem map_digitChar_inj :
    ∀ l1 l2 : List Nat, (∀ d ∈ l1, d < 10) → (∀ d ∈ l2, d < 10) →
      l1.map Nat.digitChar = l2.map Nat.digitChar → l1 = l2 := by
  intro l1
  induction l1 with
  | nil =>
    intro l2 _ _ h
    cases l2 with
    | nil => rfl
    | cons y ys => simp at h
  | cons x xs ih =>
    intro l2 h1 h2 h
    cases l2 with
    | nil => simp at h
    | cons y ys =>
      simp only [List.map_cons, List.cons.injEq] at h
      have hx := digitChar_inj_lt x (h1 x (List.mem_cons_self x xs))
        y (h2 y (List.mem_cons_self y ys)) h.1
      have hxs := ih ys (fun d hd => h1 d (List.mem_cons_of_mem x hd))
        (fun d hd => h2 d (List.mem_cons_of_mem y hd)) h.2
      rw [hx, hxs]

theorem natRepr_digit_chars (n : Nat) :
    ∀ ch ∈ (natRepr n).data, ch.isDigit = true := by
  intro ch hch
  unfold natRepr at hch
  by_cases h0 : n = 0
  · simp [h0] at hch
    subst hch
    rfl
  · rw [if_neg h0] at hch
    simp only [List.mem_reverse, List.mem_map] at hch
    obtain ⟨d, hd, hdc⟩ := hch
    have hlt : d < 10 := Nat.digits_lt_base (by norm_num) hd
    subst hdc
    interval_cases d <;> rfl

theorem natRepr_inj_pos {m n : Nat} (hm : 0 < m) (hn : 0 < n)
    (h : natRepr m = natRepr n) : m = n := by
  unfold natRepr at h
  rw [if_neg (Nat.pos_iff_ne_zero.mp hm), if_neg (Nat.pos_iff_ne_zero.mp hn)] at h
  have hdata := congrArg String.data h
  simp only [List.reverse_inj] at hdata
  have hdig := map_digitChar_inj _ _
    (fun d hd => Nat.digits_lt_base (by norm_num) hd)
    (fun d hd => Nat.digits_lt_base (by norm_num) hd) hdata
  exact Nat.digits.injective 10 hdig

theorem save_key_inj {t1 c1 t2 c2 : String} {r1 r2 : Nat}
    (ht1 : ('_' : Char) ∉ t1.data) (hc1 : ('_' : Char) ∉ c1.data)
    (ht2 : ('_' : Char) ∉ t2.data) (hc2 : ('_' : Char) ∉ c2.data)
    (hr1 : 0 < r1) (hr2 : 0 < r2)
    (h : save_key t1 c1 r1 = save_key t2 c2 r2) :
    t1 = t2 ∧ c1 = c2 ∧ r1 = r2 := by
  have hdot1 : ('.' : Char) ∉ (natRepr r1).data := by
    intro hm
    have := natRepr_digit_chars r1 '.' hm
    simp at this
  have hdot2 : ('.' : Char) ∉ (natRepr r2).data := by
    intro hm
    have := natRepr_digit_chars r2 '.' hm
    simp at this
  have hd := congrArg String.data h
  simp only [save_key, String.data_append] at hd
  have hd' : t1.data ++ '_' :: (c1.data ++ '_' ::
        ('r' :: 'u' :: 'n' :: ((natRepr r1).data ++ '.' :: ('j' :: 's' :: 'o' :: 'n' :: []))))
      = t2.data ++ '_' :: (c2.data ++ '_' ::
        ('r' :: 'u' :: 'n' :: ((natRepr r2).data ++ '.' :: ('j' :: 's' :: 'o' :: 'n' :: [])))) := by
    simpa using hd
  obtain ⟨hlev1, hrest1⟩ := append_sep_cancel '_' _ _ _ _ ht1 ht2 hd'
  obtain ⟨hlev2, hrest2⟩ := append_sep_cancel '_' _ _ _ _ hc1 hc2 hrest1
  simp only [List.cons.injEq, true_and] at hrest2
  obtain ⟨hlev3, _⟩ := append_sep_cancel '.' _ _ _ _ hdot1 hdot2 hrest2
  refine ⟨String.ext hlev1, String.ext hlev2, ?_⟩
  exact natRepr_inj_pos hr1 hr2 (String.ext hlev3)

/-- C6: with `dry_run` off, the orchestrator's write trace is exactly one
persisted record per (task, condition, run_id ∈ [1..N]) cell, in the
deterministic order repetition-outermost, then task, then condition —
each record written under its cell's storage key immediately after the
cell, before the next cell's record; and when task ids and condition names
are distinct and (as in this benchmark) free of the underscore separator,
with positive run ids, every cell's storage key is unique. -/
theorem run_benchmark_matrix (loadsEnv : String → Option RunEnvelope)
    (procOf : Nat → BenchTask → String → ProcResult)
    (elapsedOf : Nat → BenchTask → String → Rat)
    (tasks : List BenchTask) (num_runs : Nat) (conditions : List String)
    (model : String) :
    ((run_benchmark loadsEnv procOf elapsedOf tasks num_runs conditions model false).1 =
      (List.range' 1 num_runs).flatMap fun run_id =>
        tasks.flatMap fun t => conditions.map fun c =>
          (save_key t.id c run_id,
           run_task_result loadsEnv t c run_id model (procOf run_id t c)
             (elapsedOf run_id t c))) ∧
    ((tasks.map BenchTask.id).Nodup → conditions.Nodup →
      (∀ t ∈ tasks, ('_' : Char) ∉ t.id.data) →
      (∀ c ∈ conditions, ('_' : Char) ∉ c.data) →
      ((run_benchmark loadsEnv procOf elapsedOf tasks num_runs conditions model
          false).1.map Prod.fst).Nodup) := by
  have htrace := run_benchmark_trace loadsEnv procOf elapsedOf tasks num_runs conditions model
  have h1 : (run_benchmark loadsEnv procOf elapsedOf tasks num_runs conditions model
      false).1 =
      (List.range' 1 num_runs).flatMap fun run_id =>
        tasks.flatMap fun t => conditions.map fun c =>
          (save_key t.id c run_id,
           run_task_result loadsEnv t c run_id model (procOf run_id t c)
             (elapsedOf run_id t c)) := by
    rw [htrace]
  refine ⟨h1, ?_⟩
  intro htid hcond htflat hcflat
  rw [h1]
  rw [List.map_flatMap]
  have hpos : ∀ rid ∈ List.range' 1 num_runs, 0 < rid := by
    intro rid hrid
    obtain ⟨i, _, hi⟩ := List.mem_range'.mp hrid
    omega
  rw [List.nodup_flatMap]
  constructor
  · intro rid hrid
    rw [List.map_flatMap, List.nodup_flatMap]
    constructor
    · intro t ht
      rw [List.map_map]
      refine List.Nodup.map_on ?_ hcond
      intro ca hca cb hcb heq
      simp only [Function.comp_apply] at heq
      exact (save_key_inj (htflat t ht) (hcflat ca hca) (htflat t ht) (hcflat cb hcb)
        (hpos rid hrid) (hpos rid hrid) heq).2.1
    · have hids : tasks.Pairwise fun a b => a.id ≠ b.id := by
        have := htid
        rw [List.Nodup, List.pairwise_map] at this
        exact this
      refine hids.imp_of_mem ?_
      intro t1 t2 ht1 ht2 hne
      intro k hk1 hk2
      simp only [Function.onFun, List.map_map, List.mem_map, Function.comp_apply] at hk1 hk2
      obtain ⟨ca, hca, hka⟩ := hk1
      obtain ⟨cb, hcb, hkb⟩ := hk2
      have heq : save_key t1.id ca rid = save_key t2.id cb rid := by rw [hka, hkb]
      exact hne ((save_key_inj (htflat t1 ht1) (hcflat ca hca) (htflat t2 ht2)
        (hcflat cb hcb) (hpos rid hrid) (hpos rid hrid) heq).1)
  · have hnr : (List.range' 1 num_runs).Pairwise (· ≠ ·) := List.nodup_range' 1 num_runs
    refine hnr.imp_of_mem ?_
    intro r1 r2 hr1 hr2 hne
    intro k hk1 hk2
    simp only [Function.onFun, List.map_flatMap, List.map_map, List.mem_flatMap,
      List.mem_map, Function.comp_apply] at hk1 hk2
    obtain ⟨t1, ht1, ca, hca, hka⟩ := hk1
    obtain ⟨t2, ht2, cb, hcb, hkb⟩ := hk2
    have heq : save_key t1.id ca r1 = save_key t2.id cb r2 := by rw [hka, hkb]
    exact hne ((save_key_inj (htflat t1 ht1) (hcflat ca hca) (htflat t2 ht2)
      (hcflat cb hcb) (hpos r1 hr1) (hpos r2 hr2) heq).2.2)

def wTasks6 : List BenchTask :=
  [⟨"T5-command-pattern", "p5", "r5", [], none⟩, ⟨"T9-queues", "p9", "r9", [], none⟩]

def wConds6 : List String := ["baseline", "with-gnapsis"]

theorem run_benchmark_matrix_witness :
    ((run_benchmark (fun _ => none) (fun _ _ _ => .timedOut) (fun _ _ _ => 0)
        wTasks6 2 wConds6 ("sonnet") false).1.map Prod.fst).Nodup :=
  (run_benchmark_matrix (fun _ => none) (fun _ _ _ => .timedOut) (fun _ _ _ => 0)
      wTasks6 2 wConds6 ("sonnet")).2
    (by decide) (by decide) (by decide) (by decide)
